import Mathlib

/-!
Verification of the `machine` wait helpers of `charsleysa/flyctl`
(`WaitForStartOrStop`, `WaitForAnyMachineState`, `WaitTimeoutErr`,
`invalidAction`), shallowly embedded from the Go source.

Durations are modelled as natural numbers of milliseconds.  A call of the
external blocking status query (`flapsClient.Wait`) is modelled by one
`QueryEvent`: the error the query returned (`none` on success) together with
the state of the overall deadline context observed right after the call.
A run of `WaitForStartOrStop` is a function of the sequence of such events;
the model records the value returned, the number of query calls issued and
the list of backoff sleeps performed.

`WaitForAnyMachineState` is concurrent in the source: one goroutine per
candidate state, all updating a mutex-guarded triple
`(waitErr, numCompleted, successfulState)`.  Since the mutex serializes all
goroutine bodies, a run is fully described by the sequence of watcher
completions in the order in which they acquire the mutex; the model folds the
shared state over that sequence.  After a winner is recorded every later
completion only increments the counter, so the `(state, error)` pair the
polling coordinator returns equals the pair held after the whole fold.
-/

set_option autoImplicit false

namespace Flyctl

/-- `flyerr.GenericErr` from the source (field names kept). -/
structure GenericErr where
  Err : String
  Descript : String
  Suggest : String
  DocUrl : String
deriving DecidableEq, Repr

/-- `WaitTimeoutErr` from the source: machine id, configured timeout and
desired state, carried by the timeout error value. -/
structure WaitTimeoutErr where
  machineID : String
  timeout : Nat
  desiredState : String
deriving DecidableEq, Repr

/-- Go `error` values that appear in this code: a plain message error
(`errors.New` / `fmt.Errorf` without `%w`), a `flaps.FlapsError` with its
`ResponseStatusCode`, a `%w`-wrapped error, a `flyerr.GenericErr`, and a
`WaitTimeoutErr`. -/
inductive GoErr where
  | msg (s : String)
  | flaps (responseStatusCode : Nat) (s : String)
  | wrap (p : String) (e : GoErr)
  | generic (g : GenericErr)
  | waitTimeout (e : WaitTimeoutErr)
deriving DecidableEq, Repr

/-- `WaitTimeoutErr.Error` from the source. -/
def WaitTimeoutErr.Error (_ : WaitTimeoutErr) : String :=
  "timeout reached waiting for machine's state to change"

/-- Modelled from the spec: the human-readable rendering of a duration
(`time.Duration.String` lives in the Go standard library, outside this
repository); rendered as the decimal count of milliseconds. -/
def renderDuration (ms : Nat) : String :=
  toString ms ++ "ms"

/-- `WaitTimeoutErr.Description` from the source:
`fmt.Sprintf("The machine %s took more than %s to reach \"%s\"", ...)`. -/
def WaitTimeoutErr.Description (e : WaitTimeoutErr) : String :=
  "The machine " ++ e.machineID ++ " took more than " ++ renderDuration e.timeout
    ++ " to reach \"" ++ e.desiredState ++ "\""

/-- `WaitTimeoutErr.DesiredState` from the source. -/
def WaitTimeoutErr.DesiredState (e : WaitTimeoutErr) : String :=
  e.desiredState

/-- `err.Error()` for the modelled error values. -/
def GoErr.errorMessage : GoErr → String
  | .msg s => s
  | .flaps _ s => s
  | .wrap p e => p ++ e.errorMessage
  | .generic g => g.Err
  | .waitTimeout e => e.Error

/-- `errors.As(err, &flapsErr)` followed by reading `ResponseStatusCode`:
unwraps `%w` wrapping and returns the status code of the innermost
`flaps.FlapsError`, if any. -/
def GoErr.asFlapsStatus : GoErr → Option Nat
  | .flaps c _ => some c
  | .wrap _ e => e.asFlapsStatus
  | _ => none

/-- `var invalidAction flyerr.GenericErr` from the source. -/
def invalidAction : GenericErr :=
  { Err := "action must be either start or stop"
    Descript := ""
    Suggest := "This is a bug in wait function, please report this at https://community.fly.io"
    DocUrl := "" }

/-- The fields of `fly.Machine` this code reads: the id, and
`Config.Restart` (`none` models a nil `Restart`, `some p` a restart block
with `Policy == p`; `fly.MachineRestartPolicyNo` is the string `"no"`). -/
structure Machine where
  id : String
  restartPolicy : Option String
deriving DecidableEq, Repr

/-- Whether `p` occurs as a contiguous leading run of `l`. -/
def listHasPre : List Char → List Char → Bool
  | [], _ => true
  | _ :: _, [] => false
  | a :: p, b :: l => a = b && listHasPre p l

/-- Whether `p` occurs contiguously anywhere inside `l`. -/
def listHasSub (p : List Char) : List Char → Bool
  | [] => p.isEmpty
  | b :: l => listHasPre p (b :: l) || listHasSub p l

/-- `strings.Contains(s, sub)` from the Go standard library, on the
character lists of the two strings. -/
def strContains (s sub : String) : Bool :=
  listHasSub sub.data s.data

/-- `waitCtx.Err()` as observed after a query call: `none` when the overall
deadline context is still live, otherwise `context.Canceled` or
`context.DeadlineExceeded`. -/
inductive CtxErr where
  | live
  | canceled
  | deadlineExceeded
deriving DecidableEq, Repr

/-- One call of the external status query: the error it returned (`none` on
success) and the overall-deadline context state observed right after it. -/
structure QueryEvent where
  queryErr : Option GoErr
  ctxErr : CtxErr
deriving DecidableEq, Repr

/-- Modelled from the spec (the `github.com/jpillora/backoff` library is
outside this repository): with `Min = 500ms`, `Max = 2s`, `Factor = 2` and
no jitter, the `attempt`-th call of `b.Duration()` yields
`min (500ms * 2^attempt) 2s`, exponential growth capped at the maximum. -/
def backoffDuration (attempt : Nat) : Nat :=
  min (500 * 2 ^ attempt) 2000

/-- The substring tested by the restart-policy terminal condition. -/
def failedStateMsg : String :=
  "machine failed to reach desired state"

/-- Outcome of a run of `WaitForStartOrStop` on a finite event trace:
the error value returned (`none` inside the option meaning the Go function
returned `nil`; the outer `none` meaning the trace was exhausted before the
loop returned), the number of query calls issued, and the backoff sleeps
performed, in order. -/
structure WaitRun where
  outcome : Option (Option GoErr)
  calls : Nat
  sleeps : List Nat
deriving DecidableEq, Repr

/-- The retry loop of `WaitForStartOrStop` (source lines 45-70), consuming
one `QueryEvent` per iteration; `attempt` counts previous backoff sleeps
(the state of the `backoff.Backoff` value). -/
def waitLoop (machine : Machine) (timeout : Nat) (waitOnAction : String) :
    Nat → List QueryEvent → WaitRun
  | _, [] => ⟨none, 0, []⟩
  | attempt, e :: rest =>
    match e.queryErr with
    | none => ⟨some none, 1, []⟩
    | some err =>
      match e.ctxErr with
      | .canceled => ⟨some (some err), 1, []⟩
      | .deadlineExceeded =>
          ⟨some (some (.waitTimeout ⟨machine.id, timeout, waitOnAction⟩)), 1, []⟩
      | .live =>
          if strContains err.errorMessage failedStateMsg = true
              ∧ machine.restartPolicy = some "no" then
            ⟨some (some (.msg ("machine failed to reach desired start state, and restart policy was set to "
              ++ machine.restartPolicy.getD "" ++ " restart"))), 1, []⟩
          else if err.asFlapsStatus = some 400 then
            ⟨some (some (.wrap "failed waiting for machine: " err)), 1, []⟩
          else
            let r := waitLoop machine timeout waitOnAction (attempt + 1) rest
            ⟨r.outcome, r.calls + 1, backoffDuration attempt :: r.sleeps⟩

/-- `WaitForStartOrStop` from the source: validate the action, then run the
retry loop with a fresh backoff state. -/
def WaitForStartOrStop (machine : Machine) (action : String) (timeout : Nat)
    (events : List QueryEvent) : WaitRun :=
  if action = "start" then waitLoop machine timeout "started" 0 events
  else if action = "stop" then waitLoop machine timeout "stopped" 0 events
  else ⟨some (some (.generic invalidAction)), 0, []⟩

/-- An event on which the retry loop takes the transient branch: the query
errored while the overall deadline context was still live, and neither the
restart-policy terminal condition nor the bad-request condition holds. -/
def retriableEvent (machine : Machine) (e : QueryEvent) : Prop :=
  e.ctxErr = CtxErr.live ∧
  ∃ err, e.queryErr = some err ∧
    ¬ (strContains err.errorMessage failedStateMsg = true
        ∧ machine.restartPolicy = some "no") ∧
    ¬ err.asFlapsStatus = some 400

/-- The mutex-guarded shared state of one race in `WaitForAnyMachineState`
(source lines 85-89): the last recorded loser error, the completion counter,
and the winning state (`""` while no winner is recorded). -/
structure RaceState where
  waitErr : Option GoErr
  numCompleted : Nat
  successfulState : String
deriving DecidableEq, Repr

/-- One watcher completion: the state the watcher was waiting for, paired
with the error its query returned (`none` on success). -/
abbrev Completion := String × Option GoErr

/-- The goroutine body of `WaitForAnyMachineState` (source lines 93-114),
run under the mutex when the watcher for state `c.1` completes with result
`c.2`; `sl` is the optional status-line reporter (`none` models a nil
`statuslogger.StatusLine`).  Returns the updated shared state and the
status-line messages logged. -/
def watcherCompletion (mach : Machine) (sl : Option Unit)
    (acc : RaceState × List String) (c : Completion) : RaceState × List String :=
  let st := acc.1
  if st.successfulState ≠ "" then
    ({ st with numCompleted := st.numCompleted + 1 }, acc.2)
  else
    let logs := match sl with
      | some _ => acc.2 ++ ["Machine " ++ mach.id ++ " reached " ++ c.1 ++ " state"]
      | none => acc.2
    match c.2 with
    | some err =>
        ({ st with waitErr := some err, numCompleted := st.numCompleted + 1 }, logs)
    | none =>
        ({ st with successfulState := c.1, numCompleted := st.numCompleted + 1 }, logs)

/-- `WaitForAnyMachineState` from the source, as a function of the sequence
of watcher completions in mutex-acquisition order (`completions` has one
entry per element of `possibleStates`).  The polling coordinator (source
lines 118-135) returns `(successfulState, waitErr)` as soon as a winner is
recorded or every watcher has completed; once a winner is recorded, later
completions only increment the counter, so the returned pair equals the pair
held after all completions are folded.  The result also carries the
status-line messages logged during the race. -/
def WaitForAnyMachineState (mach : Machine) (completions : List Completion)
    (sl : Option Unit) : (String × Option GoErr) × List String :=
  let r := completions.foldl (watcherCompletion mach sl) (⟨none, 0, ""⟩, [])
  ((r.1.successfulState, r.1.waitErr), r.2)

/-- The error retained by the coordinator after a sequence of completions:
the error of the last completion that recorded one (`waitErr` is overwritten
by every losing watcher that completes while no winner exists). -/
def lastRecordedErr (l : List Completion) : Option GoErr :=
  l.foldl (fun acc c => match c.2 with | some e => some e | none => acc) none

/-! ### Substring helper lemmas -/

theorem listHasPre_append (p r : List Char) : listHasPre p (p ++ r) = true := by
  induction p with
  | nil => rfl
  | cons a p ih => simp [listHasPre, ih]

theorem listHasSub_self_append (su post : List Char) :
    listHasSub su (su ++ post) = true := by
  cases h : su ++ post with
  | nil => simp_all [listHasSub, List.append_eq_nil]
  | cons b l => rw [listHasSub, ← h, listHasPre_append]; simp

theorem listHasSub_append_left (su l₁ l₂ : List Char)
    (h : listHasSub su l₂ = true) : listHasSub su (l₁ ++ l₂) = true := by
  induction l₁ with
  | nil => simpa using h
  | cons b l₁ ih => simp [listHasSub, ih]

theorem strContains_append_self (a su t : String) :
    strContains (a ++ (su ++ t)) su = true := by
  unfold strContains
  rw [String.data_append, String.data_append]
  exact listHasSub_append_left _ _ _ (listHasSub_self_append _ _)

/-! ### Race-fold helper lemmas -/

theorem watcherCompletion_fst_winner (mach : Machine) (sl : Option Unit)
    (acc : RaceState × List String) (c : Completion)
    (h : ¬ acc.1.successfulState = "") :
    watcherCompletion mach sl acc c
      = ({ acc.1 with numCompleted := acc.1.numCompleted + 1 }, acc.2) := by
  simp only [watcherCompletion]
  rw [if_pos (by simpa using h)]

theorem watcherCompletion_fst_err (mach : Machine) (sl : Option Unit)
    (acc : RaceState × List String) (c : Completion) (e : GoErr)
    (h : acc.1.successfulState = "") (hc : c.2 = some e) :
    (watcherCompletion mach sl acc c).1
      = { acc.1 with waitErr := some e, numCompleted := acc.1.numCompleted + 1 } := by
  cases sl <;> simp [watcherCompletion, h, hc]

theorem watcherCompletion_fst_success (mach : Machine) (sl : Option Unit)
    (acc : RaceState × List String) (c : Completion)
    (h : acc.1.successfulState = "") (hc : c.2 = none) :
    (watcherCompletion mach sl acc c).1
      = { acc.1 with successfulState := c.1, numCompleted := acc.1.numCompleted + 1 } := by
  cases sl <;> simp [watcherCompletion, h, hc]

theorem foldl_watcherCompletion_winner (mach : Machine) (sl : Option Unit)
    (l : List Completion) :
    ∀ acc : RaceState × List String, ¬ acc.1.successfulState = "" →
    l.foldl (watcherCompletion mach sl) acc
      = ({ acc.1 with numCompleted := acc.1.numCompleted + l.length }, acc.2) := by
  induction l with
  | nil => intro acc _; simp
  | cons c l ih =>
      intro acc h
      rw [List.foldl_cons, watcherCompletion_fst_winner mach sl acc c (by simpa using h)]
      rw [ih _ (by simpa using h)]
      simp [Nat.add_assoc, Nat.add_comm 1 l.length]

theorem foldl_watcherCompletion_all_err (mach : Machine) (sl : Option Unit)
    (l : List Completion) :
    ∀ acc : RaceState × List String, acc.1.successfulState = "" →
    (∀ c ∈ l, (c.2 : Option GoErr).isSome = true) →
    (l.foldl (watcherCompletion mach sl) acc).1
      = { acc.1 with
            numCompleted := acc.1.numCompleted + l.length,
            waitErr := l.foldl
              (fun w c => match c.2 with | some e => some e | none => w)
              acc.1.waitErr } := by
  induction l with
  | nil => intro acc _ _; simp
  | cons c l ih =>
      intro acc h hl
      obtain ⟨e, he⟩ := Option.isSome_iff_exists.mp (hl c (by simp))
      have hstep := watcherCompletion_fst_err mach sl acc c e h he
      rw [List.foldl_cons, ih _ (by rw [hstep]; simpa using h)
            (fun c hc => hl c (by simp [hc]))]
      rw [hstep]
      simp [he, Nat.add_assoc, Nat.add_comm 1 l.length]

theorem foldl_watcherCompletion_fst_sl (mach : Machine) (sl sl' : Option Unit)
    (l : List Completion) :
    ∀ acc acc' : RaceState × List String, acc.1 = acc'.1 →
    (l.foldl (watcherCompletion mach sl) acc).1
      = (l.foldl (watcherCompletion mach sl') acc').1 := by
  induction l with
  | nil => intro acc acc' h; simpa using h
  | cons c l ih =>
      intro acc acc' h
      rw [List.foldl_cons, List.foldl_cons]
      apply ih
      by_cases hs : acc.1.successfulState = ""
      · cases hc : c.2 with
        | some e =>
            rw [watcherCompletion_fst_err mach sl acc c e hs hc,
                watcherCompletion_fst_err mach sl' acc' c e (h ▸ hs) hc, h]
        | none =>
            rw [watcherCompletion_fst_success mach sl acc c hs hc,
                watcherCompletion_fst_success mach sl' acc' c (h ▸ hs) hc, h]
      · rw [watcherCompletion_fst_winner mach sl acc c (by simpa using hs),
            watcherCompletion_fst_winner mach sl' acc' c (by simp [← h]; simpa using hs), h]

/-! ### Backoff and retry-loop helper lemmas -/

theorem backoffDuration_le_max (k : Nat) : backoffDuration k ≤ 2000 :=
  min_le_right _ _

theorem backoffDuration_le_succ (k : Nat) :
    backoffDuration k ≤ backoffDuration (k + 1) := by
  have h : 500 * 2 ^ k ≤ 500 * 2 ^ (k + 1) :=
    Nat.mul_le_mul_left _ (Nat.pow_le_pow_right (by norm_num) (Nat.le_succ k))
  exact min_le_min h (Nat.le_refl 2000)

theorem waitLoop_cons_retriable (machine : Machine) (timeout : Nat)
    (waitOnAction : String) (attempt : Nat) (e : QueryEvent) (rest : List QueryEvent)
    (he : retriableEvent machine e) :
    waitLoop machine timeout waitOnAction attempt (e :: rest)
      = ⟨(waitLoop machine timeout waitOnAction (attempt + 1) rest).outcome,
         (waitLoop machine timeout waitOnAction (attempt + 1) rest).calls + 1,
         backoffDuration attempt
           :: (waitLoop machine timeout waitOnAction (attempt + 1) rest).sleeps⟩ := by
  obtain ⟨hctx, err, hq, h1, h2⟩ := he
  simp only [waitLoop, hq, hctx]
  rw [if_neg h1, if_neg h2]

theorem waitLoop_retriable_append (machine : Machine) (timeout : Nat)
    (waitOnAction : String) (errs rest : List QueryEvent) :
    ∀ attempt : Nat, (∀ e ∈ errs, retriableEvent machine e) →
    waitLoop machine timeout waitOnAction attempt (errs ++ rest)
      = ⟨(waitLoop machine timeout waitOnAction (attempt + errs.length) rest).outcome,
         (waitLoop machine timeout waitOnAction (attempt + errs.length) rest).calls
           + errs.length,
         (List.range errs.length).map (fun k => backoffDuration (attempt + k))
           ++ (waitLoop machine timeout waitOnAction (attempt + errs.length) rest).sleeps⟩ := by
  induction errs with
  | nil => intro attempt _; simp
  | cons e errs ih =>
      intro attempt h
      rw [List.cons_append,
        waitLoop_cons_retriable machine timeout waitOnAction attempt e (errs ++ rest)
          (h e (by simp)),
        ih (attempt + 1) (fun e he => h e (by simp [he]))]
      have hn : attempt + 1 + errs.length = attempt + (errs.length + 1) := by omega
      rw [hn]
      simp [WaitRun.mk.injEq, List.range_succ_eq_map, List.map_map, Function.comp_def,
        Nat.succ_eq_add_one, Nat.add_assoc, Nat.add_comm, Nat.add_left_comm]

theorem lastRecordedErr_foldl_isSome (l : List Completion) :
    ∀ w : Option GoErr, (∀ c ∈ l, (c.2 : Option GoErr).isSome = true) → l ≠ [] →
    (l.foldl (fun w c => match c.2 with | some e => some e | none => w) w).isSome
      = true := by
  induction l with
  | nil => intro w _ hne; exact absurd rfl hne
  | cons c l ih =>
      intro w hl _
      obtain ⟨e, he⟩ := Option.isSome_iff_exists.mp (hl c (by simp))
      rw [List.foldl_cons, he]
      cases l with
      | nil => simp
      | cons d l => exact ih _ (fun c hc => hl c (by simp [hc])) (by simp)

/-! ### Claim theorems for the race coordinator -/

/-- Claim C1, counterexample: with candidates raced as
`[("stopped", error "boom"), ("started", success)]` and the erroring watcher
completing first, `WaitForAnyMachineState` returns the winning state
`"started"` but paired with the loser's error `"boom"`, not with a nil
error, contrary to the claim. -/
theorem WaitForAnyMachineState_winner_error_not_nil :
    (WaitForAnyMachineState ⟨"m1", none⟩
        [("stopped", some (.msg "boom")), ("started", none)] none).1
      = ("started", some (.msg "boom"))
    ∧ some (GoErr.msg "boom") ≠ (none : Option GoErr) :=
  ⟨rfl, by simp⟩

/-- Claim C1, amended: for every non-empty candidate race in which exactly
one watcher succeeds (on a non-empty state label) and all others error,
`WaitForAnyMachineState` returns the succeeding state, paired with the last
error recorded by the watchers that completed before the winner (nil when
the winner completes first); errors of watchers completing after the winner
are discarded. -/
theorem WaitForAnyMachineState_single_success (mach : Machine) (sl : Option Unit)
    (pre post : List Completion) (s : String) (hs : ¬ s = "")
    (hpre : ∀ c ∈ pre, (c.2 : Option GoErr).isSome = true)
    (hpost : ∀ c ∈ post, (c.2 : Option GoErr).isSome = true) :
    (WaitForAnyMachineState mach (pre ++ (s, none) :: post) sl).1
      = (s, lastRecordedErr pre) := by
  unfold WaitForAnyMachineState
  rw [List.foldl_append, List.foldl_cons]
  have h1 := foldl_watcherCompletion_all_err mach sl pre (⟨none, 0, ""⟩, []) rfl hpre
  have h2 := watcherCompletion_fst_success mach sl
      (List.foldl (watcherCompletion mach sl) (⟨none, 0, ""⟩, []) pre) (s, none)
      (by rw [h1]) rfl
  rw [foldl_watcherCompletion_winner mach sl post _ (by rw [h2]; simpa using hs)]
  simp [h2, h1, lastRecordedErr]

/-- Witness for the amended claim C1 at a concrete race. -/
theorem WaitForAnyMachineState_single_success_witness :
    (WaitForAnyMachineState ⟨"m3", none⟩
        ([("created", some (.msg "e1"))]
          ++ ("started", (none : Option GoErr)) :: [("stopped", some (.msg "e2"))])
        none).1
      = ("started", lastRecordedErr [("created", some (.msg "e1"))]) :=
  WaitForAnyMachineState_single_success ⟨"m3", none⟩ none
    [("created", some (.msg "e1"))] [("stopped", some (.msg "e2"))] "started"
    (by decide) (by decide) (by decide)

/-- Claim C2, counterexample: for the empty candidate list every watcher's
query errors vacuously, yet `WaitForAnyMachineState` returns a nil error,
not a non-nil one. -/
theorem WaitForAnyMachineState_all_fail_err_nil_on_empty :
    (∀ c ∈ ([] : List Completion), (c.2 : Option GoErr).isSome = true)
    ∧ (WaitForAnyMachineState ⟨"m4", none⟩ [] none).1
        = ("", (none : Option GoErr)) :=
  ⟨by simp, rfl⟩

/-- Claim C2, amended: for every non-empty candidate race in which every
watcher errors, `WaitForAnyMachineState` returns the empty state together
with the most recently recorded loser error, which is non-nil. -/
theorem WaitForAnyMachineState_all_fail (mach : Machine) (sl : Option Unit)
    (l : List Completion) (hne : l ≠ [])
    (hl : ∀ c ∈ l, (c.2 : Option GoErr).isSome = true) :
    (WaitForAnyMachineState mach l sl).1 = ("", lastRecordedErr l)
      ∧ (lastRecordedErr l).isSome = true := by
  constructor
  · simp only [WaitForAnyMachineState]
    rw [foldl_watcherCompletion_all_err mach sl l (⟨none, 0, ""⟩, []) rfl hl]
    simp [lastRecordedErr]
  · exact lastRecordedErr_foldl_isSome l none hl hne

/-- Witness for the amended claim C2 at a concrete race. -/
theorem WaitForAnyMachineState_all_fail_witness :
    (WaitForAnyMachineState ⟨"m5", none⟩
        [("started", some (.msg "e1")), ("stopped", some (.msg "e2"))] none).1
      = ("", lastRecordedErr
          [("started", some (.msg "e1")), ("stopped", some (.msg "e2"))])
    ∧ (lastRecordedErr
        [("started", some (.msg "e1")), ("stopped", some (.msg "e2"))]).isSome
      = true :=
  WaitForAnyMachineState_all_fail ⟨"m5", none⟩ none
    [("started", some (.msg "e1")), ("stopped", some (.msg "e2"))]
    (by decide) (by decide)

/-- Claim C3: when two or more watchers succeed, the first succeeding
watcher to acquire the mutex (here: the first success in completion order,
all earlier completions having errored) permanently records the winner; the
returned state is exactly that one succeeding state, a member of the raced
completions, never a combination, even though a later watcher also
succeeds. -/
theorem WaitForAnyMachineState_first_success_wins (mach : Machine)
    (sl : Option Unit) (pre post : List Completion) (s : String) (hs : ¬ s = "")
    (hpre : ∀ c ∈ pre, (c.2 : Option GoErr).isSome = true)
    (hpost : ∃ c ∈ post, (c.2 : Option GoErr) = none) :
    (WaitForAnyMachineState mach (pre ++ (s, none) :: post) sl).1.1 = s
      ∧ (s, (none : Option GoErr)) ∈ pre ++ (s, none) :: post := by
  constructor
  · unfold WaitForAnyMachineState
    rw [List.foldl_append, List.foldl_cons]
    have h1 := foldl_watcherCompletion_all_err mach sl pre (⟨none, 0, ""⟩, []) rfl hpre
    have h2 := watcherCompletion_fst_success mach sl
        (List.foldl (watcherCompletion mach sl) (⟨none, 0, ""⟩, []) pre) (s, none)
        (by rw [h1]) rfl
    rw [foldl_watcherCompletion_winner mach sl post _ (by rw [h2]; simpa using hs)]
    simp [h2]
  · simp

/-- Witness for claim C3 at a concrete race with two successes. -/
theorem WaitForAnyMachineState_first_success_wins_witness :
    (WaitForAnyMachineState ⟨"m6", none⟩
        ([("created", some (.msg "e1"))]
          ++ ("started", (none : Option GoErr)) :: [("stopped", none)]) none).1.1
      = "started"
    ∧ ("started", (none : Option GoErr))
        ∈ [("created", some (GoErr.msg "e1"))]
            ++ ("started", (none : Option GoErr)) :: [("stopped", none)] :=
  WaitForAnyMachineState_first_success_wins ⟨"m6", none⟩ none
    [("created", some (.msg "e1"))] [("stopped", none)] "started"
    (by decide) (by decide) ⟨("stopped", none), by simp⟩

/-- Claim C8: for every machine and every fixed sequence of watcher
completions, the `(state, error)` pair returned by `WaitForAnyMachineState`
is the same whether the optional status-line reporter is supplied or nil —
the progress sink never changes the outcome. -/
theorem WaitForAnyMachineState_sl_noninterference (mach : Machine)
    (completions : List Completion) (sl : Option Unit) :
    (WaitForAnyMachineState mach completions sl).1
      = (WaitForAnyMachineState mach completions none).1 := by
  simp only [WaitForAnyMachineState]
  rw [foldl_watcherCompletion_fst_sl mach sl none completions
        (⟨none, 0, ""⟩, []) (⟨none, 0, ""⟩, []) rfl]

/-- Claim C9: called with an empty candidate list, `WaitForAnyMachineState`
spawns no watcher (the completion sequence is empty, so no query is ever
issued), and returns the empty string with a nil error and no status-line
output: the completion count, zero, already equals the number of
candidates. -/
theorem WaitForAnyMachineState_empty (mach : Machine) (sl : Option Unit) :
    WaitForAnyMachineState mach [] sl = (("", none), []) :=
  rfl

/-! ### Claim theorems for the single-target waiter -/

theorem strContains_append_left (s t sub : String) (h : strContains t sub = true) :
    strContains (s ++ t) sub = true := by
  unfold strContains at h ⊢
  rw [String.data_append]
  exact listHasSub_append_left _ _ _ h

theorem waitLoop_success (machine : Machine) (timeout : Nat) (waitOnAction : String)
    (attempt : Nat) (succ : QueryEvent) (rest : List QueryEvent)
    (hsucc : succ.queryErr = none) :
    waitLoop machine timeout waitOnAction attempt (succ :: rest)
      = ⟨some none, 1, []⟩ := by
  simp only [waitLoop, hsucc]

/-- Claim C4: for every action other than `"start"` and `"stop"`,
`WaitForStartOrStop` returns the `invalidAction` error immediately, with
zero query calls and no backoff sleep, whatever events the status-query
collaborator would have produced. -/
theorem WaitForStartOrStop_invalid_action (machine : Machine) (action : String)
    (timeout : Nat) (events : List QueryEvent)
    (h1 : ¬ action = "start") (h2 : ¬ action = "stop") :
    WaitForStartOrStop machine action timeout events
      = ⟨some (some (.generic invalidAction)), 0, []⟩ := by
  unfold WaitForStartOrStop
  rw [if_neg h1, if_neg h2]

/-- Witness for claim C4 at the action `"restart"`. -/
theorem WaitForStartOrStop_invalid_action_witness :
    WaitForStartOrStop ⟨"m7", none⟩ "restart" 5000
        [⟨none, CtxErr.live⟩]
      = ⟨some (some (.generic invalidAction)), 0, []⟩ :=
  WaitForStartOrStop_invalid_action ⟨"m7", none⟩ "restart" 5000
    [⟨none, CtxErr.live⟩] (by decide) (by decide)

/-- Claim C5: when the query errors transiently `K` times and then
succeeds, the sleep before the `(k+1)`-th retry is
`min (500ms * 2^k) 2s` (exponential, factor 2, capped at 2s, no jitter);
the run succeeds after `K+1` calls, the delay sequence is non-decreasing
and every delay is at most 2s. -/
theorem WaitForStartOrStop_backoff (machine : Machine) (timeout : Nat)
    (action : String) (errs : List QueryEvent) (succ : QueryEvent)
    (ha : action = "start" ∨ action = "stop")
    (herrs : ∀ e ∈ errs, retriableEvent machine e)
    (hsucc : succ.queryErr = none) :
    (WaitForStartOrStop machine action timeout (errs ++ [succ])).sleeps
        = (List.range errs.length).map (fun k => min (500 * 2 ^ k) 2000)
      ∧ (WaitForStartOrStop machine action timeout (errs ++ [succ])).outcome
          = some none
      ∧ (WaitForStartOrStop machine action timeout (errs ++ [succ])).calls
          = errs.length + 1
      ∧ (∀ k, backoffDuration k ≤ backoffDuration (k + 1))
      ∧ ∀ d ∈ (WaitForStartOrStop machine action timeout (errs ++ [succ])).sleeps,
          d ≤ 2000 := by
  have hrun : WaitForStartOrStop machine action timeout (errs ++ [succ])
      = ⟨some none, 1 + errs.length,
          (List.range errs.length).map backoffDuration⟩ := by
    have key : ∀ w, waitLoop machine timeout w 0 (errs ++ [succ])
        = ⟨some none, 1 + errs.length,
            (List.range errs.length).map backoffDuration⟩ := by
      intro w
      rw [waitLoop_retriable_append machine timeout w errs [succ] 0 herrs,
          waitLoop_success machine timeout w (0 + errs.length) succ [] hsucc]
      simp
    rcases ha with ha | ha <;> subst ha <;> simp [WaitForStartOrStop, key]
  refine ⟨?_, ?_, ?_, backoffDuration_le_succ, ?_⟩
  · rw [hrun]; simp [backoffDuration]
  · rw [hrun]
  · rw [hrun]; simp [Nat.add_comm]
  · rw [hrun]
    intro d hd
    simp only [List.mem_map] at hd
    obtain ⟨k, _, hk⟩ := hd
    exact hk ▸ backoffDuration_le_max k

/-- Witness for claim C5 with two transient errors before success. -/
theorem WaitForStartOrStop_backoff_witness :
    (WaitForStartOrStop ⟨"m8", none⟩ "start" 5000
        ([⟨some (.msg "t1"), CtxErr.live⟩, ⟨some (.msg "t2"), CtxErr.live⟩]
          ++ [⟨none, CtxErr.live⟩])).sleeps
        = (List.range 2).map (fun k => min (500 * 2 ^ k) 2000)
      ∧ (WaitForStartOrStop ⟨"m8", none⟩ "start" 5000
          ([⟨some (.msg "t1"), CtxErr.live⟩, ⟨some (.msg "t2"), CtxErr.live⟩]
            ++ [⟨none, CtxErr.live⟩])).outcome = some none := by
  have h := WaitForStartOrStop_backoff ⟨"m8", none⟩ 5000 "start"
    [⟨some (.msg "t1"), CtxErr.live⟩, ⟨some (.msg "t2"), CtxErr.live⟩]
    ⟨none, CtxErr.live⟩ (Or.inl rfl)
    (by
      intro e he
      simp only [List.mem_cons, List.not_mem_nil, or_false] at he
      rcases he with h | h <;> subst h
      · exact ⟨rfl, .msg "t1", rfl, by decide, by decide⟩
      · exact ⟨rfl, .msg "t2", rfl, by decide, by decide⟩)
    rfl
  exact ⟨h.1, h.2.1⟩

/-- Claim C6: when, with the overall deadline still live, the query errors
with a message containing the failed-to-reach-desired-state condition and
the machine's restart policy is `"no"`, `WaitForStartOrStop` returns the
non-retryable failure immediately: exactly one query call and no backoff
sleep. -/
theorem WaitForStartOrStop_no_restart_terminal (machine : Machine)
    (timeout : Nat) (action : String) (e : QueryEvent) (rest : List QueryEvent)
    (err : GoErr) (ha : action = "start" ∨ action = "stop")
    (hq : e.queryErr = some err) (hctx : e.ctxErr = CtxErr.live)
    (hmsg : strContains err.errorMessage failedStateMsg = true)
    (hpol : machine.restartPolicy = some "no") :
    WaitForStartOrStop machine action timeout (e :: rest)
      = ⟨some (some (.msg
          "machine failed to reach desired start state, and restart policy was set to no restart")),
         1, []⟩ := by
  have key : ∀ w, waitLoop machine timeout w 0 (e :: rest)
      = ⟨some (some (.msg
          "machine failed to reach desired start state, and restart policy was set to no restart")),
         1, []⟩ := by
    intro w
    simp only [waitLoop, hq, hctx]
    rw [if_pos ⟨hmsg, hpol⟩]
    simp [hpol]
  rcases ha with ha | ha <;> subst ha <;> simp [WaitForStartOrStop, key]

/-- Witness for claim C6 at a concrete no-restart failure. -/
theorem WaitForStartOrStop_no_restart_terminal_witness :
    WaitForStartOrStop ⟨"m9", some "no"⟩ "start" 5000
        [⟨some (.msg "machine failed to reach desired state"), CtxErr.live⟩]
      = ⟨some (some (.msg
          "machine failed to reach desired start state, and restart policy was set to no restart")),
         1, []⟩ :=
  WaitForStartOrStop_no_restart_terminal ⟨"m9", some "no"⟩ 5000 "start"
    ⟨some (.msg "machine failed to reach desired state"), CtxErr.live⟩ []
    (.msg "machine failed to reach desired state")
    (Or.inl rfl) rfl rfl (by decide) rfl

theorem strContains_Description_machineID (e : WaitTimeoutErr) :
    strContains e.Description e.machineID = true := by
  simp only [WaitTimeoutErr.Description, String.append_assoc]
  exact strContains_append_self _ _ _

theorem strContains_Description_timeout (e : WaitTimeoutErr) :
    strContains e.Description (renderDuration e.timeout) = true := by
  simp only [WaitTimeoutErr.Description, String.append_assoc]
  apply strContains_append_left
  apply strContains_append_left
  exact strContains_append_self _ _ _

theorem strContains_Description_desiredState (e : WaitTimeoutErr) :
    strContains e.Description e.desiredState = true := by
  simp only [WaitTimeoutErr.Description, String.append_assoc]
  apply strContains_append_left
  apply strContains_append_left
  apply strContains_append_left
  apply strContains_append_left
  exact strContains_append_self _ _ _

/-- Claim C7: when the query errors and the overall deadline context has
exceeded its deadline, `WaitForStartOrStop` returns a `WaitTimeoutErr`
carrying the machine's id, the configured timeout and the desired state,
and the human-readable `Description` rendering of that error contains all
three values. -/
theorem WaitForStartOrStop_deadline_timeout (machine : Machine) (timeout : Nat)
    (action : String) (e : QueryEvent) (rest : List QueryEvent) (err : GoErr)
    (ha : action = "start" ∨ action = "stop")
    (hq : e.queryErr = some err) (hctx : e.ctxErr = CtxErr.deadlineExceeded) :
    WaitForStartOrStop machine action timeout (e :: rest)
        = ⟨some (some (.waitTimeout ⟨machine.id, timeout,
            if action = "start" then "started" else "stopped"⟩)), 1, []⟩
      ∧ strContains (WaitTimeoutErr.Description ⟨machine.id, timeout,
            if action = "start" then "started" else "stopped"⟩) machine.id = true
      ∧ strContains (WaitTimeoutErr.Description ⟨machine.id, timeout,
            if action = "start" then "started" else "stopped"⟩)
          (renderDuration timeout) = true
      ∧ strContains (WaitTimeoutErr.Description ⟨machine.id, timeout,
            if action = "start" then "started" else "stopped"⟩)
          (if action = "start" then "started" else "stopped") = true := by
  refine ⟨?_, strContains_Description_machineID _,
          strContains_Description_timeout _,
          strContains_Description_desiredState
            ⟨machine.id, timeout, if action = "start" then "started" else "stopped"⟩⟩
  have key : ∀ w, waitLoop machine timeout w 0 (e :: rest)
      = ⟨some (some (.waitTimeout ⟨machine.id, timeout, w⟩)), 1, []⟩ := by
    intro w; simp only [waitLoop, hq, hctx]
  rcases ha with ha | ha <;> subst ha <;> simp [WaitForStartOrStop, key]

/-- Witness for claim C7 at a concrete deadline-exceeded run. -/
theorem WaitForStartOrStop_deadline_timeout_witness :
    WaitForStartOrStop ⟨"machine-1", none⟩ "start" 5000
        [⟨some (.msg "boom"), CtxErr.deadlineExceeded⟩]
        = ⟨some (some (.waitTimeout ⟨"machine-1", 5000,
            if "start" = "start" then "started" else "stopped"⟩)), 1, []⟩
      ∧ strContains (WaitTimeoutErr.Description ⟨"machine-1", 5000,
            if "start" = "start" then "started" else "stopped"⟩) "machine-1" = true
      ∧ strContains (WaitTimeoutErr.Description ⟨"machine-1", 5000,
            if "start" = "start" then "started" else "stopped"⟩)
          (renderDuration 5000) = true
      ∧ strContains (WaitTimeoutErr.Description ⟨"machine-1", 5000,
            if "start" = "start" then "started" else "stopped"⟩)
          (if "start" = "start" then "started" else "stopped") = true :=
  WaitForStartOrStop_deadline_timeout ⟨"machine-1", none⟩ 5000 "start"
    ⟨some (.msg "boom"), CtxErr.deadlineExceeded⟩ [] (.msg "boom")
    (Or.inl rfl) rfl rfl

/-- Claim C10: classification by the overall deadline context takes
precedence over payload-based classification: even for an error that
matches both the restart-policy terminal condition and the bad-request
condition, a canceled context makes `WaitForStartOrStop` propagate the
error unchanged, and a deadline-exceeded context makes it return the
timeout error — in both cases after exactly this one query call. -/
theorem WaitForStartOrStop_ctx_precedence (machine : Machine) (timeout : Nat)
    (action : String) (e : QueryEvent) (rest : List QueryEvent) (err : GoErr)
    (ha : action = "start" ∨ action = "stop")
    (hq : e.queryErr = some err)
    (hmsg : strContains err.errorMessage failedStateMsg = true)
    (hpol : machine.restartPolicy = some "no")
    (hbad : err.asFlapsStatus = some 400) :
    (e.ctxErr = CtxErr.canceled →
        WaitForStartOrStop machine action timeout (e :: rest)
          = ⟨some (some err), 1, []⟩)
    ∧ (e.ctxErr = CtxErr.deadlineExceeded →
        WaitForStartOrStop machine action timeout (e :: rest)
          = ⟨some (some (.waitTimeout ⟨machine.id, timeout,
              if action = "start" then "started" else "stopped"⟩)), 1, []⟩) := by
  constructor
  · intro hctx
    have key : ∀ w, waitLoop machine timeout w 0 (e :: rest)
        = ⟨some (some err), 1, []⟩ := by
      intro w; simp only [waitLoop, hq, hctx]
    rcases ha with ha | ha <;> subst ha <;> simp [WaitForStartOrStop, key]
  · intro hctx
    have key : ∀ w, waitLoop machine timeout w 0 (e :: rest)
        = ⟨some (some (.waitTimeout ⟨machine.id, timeout, w⟩)), 1, []⟩ := by
      intro w; simp only [waitLoop, hq, hctx]
    rcases ha with ha | ha <;> subst ha <;> simp [WaitForStartOrStop, key]

/-- Witness for claim C10: the same flaps 400 error whose message contains
the terminal condition, under a canceled and under a deadline-exceeded
context. -/
theorem WaitForStartOrStop_ctx_precedence_witness :
    (WaitForStartOrStop ⟨"m10", some "no"⟩ "start" 5000
        [⟨some (.flaps 400 "machine failed to reach desired state"), CtxErr.canceled⟩]
      = ⟨some (some (.flaps 400 "machine failed to reach desired state")), 1, []⟩)
    ∧ (WaitForStartOrStop ⟨"m10", some "no"⟩ "start" 5000
        [⟨some (.flaps 400 "machine failed to reach desired state"),
          CtxErr.deadlineExceeded⟩]
      = ⟨some (some (.waitTimeout ⟨"m10", 5000,
          if "start" = "start" then "started" else "stopped"⟩)), 1, []⟩) :=
  ⟨(WaitForStartOrStop_ctx_precedence ⟨"m10", some "no"⟩ 5000 "start"
      ⟨some (.flaps 400 "machine failed to reach desired state"), CtxErr.canceled⟩ []
      (.flaps 400 "machine failed to reach desired state")
      (Or.inl rfl) rfl (by decide) rfl rfl).1 rfl,
   (WaitForStartOrStop_ctx_precedence ⟨"m10", some "no"⟩ 5000 "start"
      ⟨some (.flaps 400 "machine failed to reach desired state"),
        CtxErr.deadlineExceeded⟩ []
      (.flaps 400 "machine failed to reach desired state")
      (Or.inl rfl) rfl (by decide) rfl rfl).2 rfl⟩

end Flyctl
